import Mathlib

/-!
Verification of the Firestore user-data value decoder.

Shallow embedding of `packages/firestore/src/api/user_data_writer.ts`
(`AbstractUserDataWriter`): a recursive decoder from the backend's tagged
wire representation of field values to native values.  Collaborators that
the decoder consumes but that live outside this file's source
(`ResourcePath`, `isValidResourceName`, `DatabaseId`, `DocumentKey`,
`normalizeNumber`, `normalizeTimestamp`, `normalizeByteString`,
`getLocalWriteTime`, `getPreviousValue`) are modelled from the spec's
interface descriptions and are marked as such.
-/

namespace Firestore

/-- The `ServerTimestampBehavior` policy: `'estimate' | 'previous' | 'none'`. -/
inductive ServerTimestampBehavior where
  | estimate
  | previous
  | none
deriving DecidableEq, Repr

/-- A wire-level timestamp payload `{seconds, nanos}`. -/
structure ProtoTimestamp where
  seconds : Int
  nanos : Int
deriving DecidableEq, Repr

/-- The native timestamp type constructed by `convertTimestamp`. -/
structure Timestamp where
  seconds : Int
  nanos : Int
deriving DecidableEq, Repr

/-- A wire numeric payload: a JS number (modelled as a rational, exact for
every value the claims exercise) or a decimal string carrying an integer,
as the proto JSON form delivers `integerValue`. -/
inductive NumPayload where
  | num (q : ℚ)
  | str (i : Int)
deriving DecidableEq, Repr

/-- JS truthiness of a numeric payload: the number `0` is falsy; a decimal
string for an integer is never empty, hence always truthy. -/
def NumPayload.truthy : NumPayload → Bool
  | .num q => decide (q ≠ 0)
  | .str _ => true

/-- The exact numeric value a payload denotes. -/
def NumPayload.value : NumPayload → ℚ
  | .num q => q
  | .str i => (i : ℚ)

/-- JS `a || b` on optional numeric payloads: yields `a` when present and
truthy, otherwise `b`. -/
def jsOr (a b : Option NumPayload) : Option NumPayload :=
  match a with
  | Option.some p => if p.truthy then Option.some p else b
  | Option.none => b

/-- Modelled from the spec: `normalizeNumber(wireNumber) -> number`
canonicalizes a wire-level numeric encoding — a JS number passes through,
a decimal string is parsed, an absent payload canonicalizes to `0`. -/
def normalizeNumber : Option NumPayload → ℚ
  | Option.some p => p.value
  | Option.none => 0

/-- Modelled from the spec: `normalizeTimestamp(wireTimestamp) ->
{seconds, nanos}`; on an already-structured payload canonicalization is
the identity. -/
def normalizeTimestamp (t : ProtoTimestamp) : ProtoTimestamp := t

/-- A normalized byte sequence; `normalizeByteString` below is modelled
from the spec as the identity on an already-normalized sequence. -/
abbrev ByteString := List Nat

/-- Modelled from the spec: `normalizeByteString(wireBytes) ->
ByteSequence`. -/
def normalizeByteString (b : ByteString) : ByteString := b

/-- Modelled from the spec: a Database Identity is the
`{project identifier, database identifier}` pair. -/
structure DatabaseId where
  projectId : String
  database : String
deriving DecidableEq, Repr

/-- Modelled from the spec: database-identity comparison is value
equality on both components. -/
def DatabaseId.isEqual (a b : DatabaseId) : Bool :=
  a.projectId == b.projectId && a.database == b.database

/-- A structured resource path: the segments of a slash-delimited name. -/
abbrev ResourcePath := List String

/-- Split a character list on the `/` separator, `cur` holding the
(reversed) characters of the segment being read. -/
def splitOnSlash : List Char → List Char → List String
  | [], cur => [String.mk cur.reverse]
  | c :: rest, cur =>
      if c = '/' then String.mk cur.reverse :: splitOnSlash rest []
      else splitOnSlash rest (c :: cur)

/-- Modelled from the spec: `ResourcePath.fromString` parses a reference
name into segments split on the `/` separator (empty segments dropped). -/
def ResourcePath.fromString (name : String) : ResourcePath :=
  (splitOnSlash name.data []).filter (fun s => s ≠ "")

/-- Modelled from the spec: positional segment accessor (out-of-range
access yields the empty segment, the embedding of JS `undefined`). -/
def ResourcePath.get (p : ResourcePath) (i : Nat) : String :=
  p.getD i ""

/-- Modelled from the spec: `popFirst(5)` strips the leading segments. -/
def ResourcePath.popFirst (p : ResourcePath) (n : Nat) : ResourcePath :=
  p.drop n

/-- Modelled from the spec: `isValidResourceName` checks the exact shape
of a valid document resource name
`projects/{p}/databases/{d}/documents/...`. -/
def isValidResourceName (p : ResourcePath) : Bool :=
  decide (5 ≤ p.length) && (p.get 0 == "projects")
    && (p.get 2 == "databases") && (p.get 4 == "documents")

/-- Modelled from the spec: a `DocumentKey` wraps the database-relative
resource path of an entity. -/
structure DocumentKey where
  path : ResourcePath
deriving DecidableEq, Repr

/-- Modelled from the spec: a key prints as its slash-joined path (the
JS template interpolation of a `DocumentKey`). -/
def DocumentKey.toStr (k : DocumentKey) : String :=
  String.intercalate "/" k.path

/-- A Wire Value: the tagged union of the backend's field-value
representation, one constructor per recognized tag plus `invalid` for a
value carrying no recognized tag.  The server-timestamp wrapper carries
its local write time and an optional previous wire value; array and map
payloads are optional exactly as in the proto types
(`values?: Value[]`, `fields?: ...`). -/
inductive WireValue where
  | nullValue
  | booleanValue (b : Bool)
  | integerValue (p : NumPayload)
  | doubleValue (q : ℚ)
  | timestampValue (t : ProtoTimestamp)
  | serverTimestampValue (t : ProtoTimestamp) (prev : Option WireValue)
  | stringValue (s : String)
  | bytesValue (b : ByteString)
  | referenceValue (name : String)
  | geoPointValue (lat lon : Option ℚ)
  | arrayValue (values : Option (List WireValue))
  | mapValue (fields : Option (List (String × WireValue)))
  | invalid
deriving Repr

/-- The JS field access `value.integerValue` (absent unless the integer
variant is populated). -/
def WireValue.integerValueField : WireValue → Option NumPayload
  | .integerValue p => Option.some p
  | _ => Option.none

/-- The JS field access `value.doubleValue` (absent unless the double
variant is populated). -/
def WireValue.doubleValueField : WireValue → Option NumPayload
  | .doubleValue q => Option.some (NumPayload.num q)
  | _ => Option.none

/-- Modelled from the spec: `getLocalWriteTime(serverTimestampWrapper)`
extracts the wrapper's own local write-time field. -/
def getLocalWriteTime (t : ProtoTimestamp) (_prev : Option WireValue) : ProtoTimestamp := t

/-- Modelled from the spec: `getPreviousValue(serverTimestampWrapper)`
extracts the wrapper's optional previous wire value. -/
def getPreviousValue (_t : ProtoTimestamp) (prev : Option WireValue) : Option WireValue := prev

/-- A Decoded Value: the native output shape.  Bytes and references carry
the normalized byte content and the resolved `DocumentKey`; the
flavor-specific wrappers around these carry no further decoding logic. -/
inductive DecodedValue where
  | null
  | boolean (b : Bool)
  | number (q : ℚ)
  | timestamp (t : Timestamp)
  | string (s : String)
  | bytes (b : ByteString)
  | reference (key : DocumentKey)
  | geoPoint (lat lon : ℚ)
  | array (xs : List DecodedValue)
  | map (fields : List (String × DecodedValue))
deriving Repr

/-- `convertTimestamp`: construct the native timestamp from the
normalized `{seconds, nanos}`. -/
def convertTimestamp (value : ProtoTimestamp) : Timestamp :=
  let normalizedValue := normalizeTimestamp value
  Timestamp.mk normalizedValue.seconds normalizedValue.nanos

/-- The diagnostic emitted by `convertDocumentKey` on a cross-database
reference, mirroring the source's template string. -/
def mismatchMessage (key : DocumentKey) (databaseId expectedDatabaseId : DatabaseId) : String :=
  "Document " ++ key.toStr ++ " contains a document reference within a different database ("
    ++ databaseId.projectId ++ "/" ++ databaseId.database
    ++ ") which is not supported. It will be treated as a reference in the current database ("
    ++ expectedDatabaseId.projectId ++ "/" ++ expectedDatabaseId.database ++ ") instead."

/-- `convertDocumentKey`: parse and validate the reference name, extract
the embedded database identity from segments 1 and 3, build the key by
stripping the leading 5 segments, and log (without failing) when the
embedded identity differs from the expected one.  An invalid resource
name aborts with the `hardAssert` fault. -/
def convertDocumentKey (name : String) (expectedDatabaseId : DatabaseId) :
    Except String (DocumentKey × List String) :=
  let resourcePath := ResourcePath.fromString name
  if isValidResourceName resourcePath then
    let databaseId := DatabaseId.mk (resourcePath.get 1) (resourcePath.get 3)
    let key := DocumentKey.mk (resourcePath.popFirst 5)
    if databaseId.isEqual expectedDatabaseId then
      Except.ok (key, [])
    else
      Except.ok (key, [mismatchMessage key databaseId expectedDatabaseId])
  else
    Except.error ("ReferenceValue is not valid " ++ name)

mutual

/-- `convertValue`: tag dispatch of the decoder.  `expectedDatabaseId` is
the database identity the concrete flavor's `convertReference` closes
over; the result pairs the decoded value with the diagnostics logged
during the call, and a contract violation aborts with `Except.error`. -/
def convertValue (expectedDatabaseId : DatabaseId) (value : WireValue)
    (serverTimestampBehavior : ServerTimestampBehavior := ServerTimestampBehavior.none) :
    Except String (DecodedValue × List String) :=
  match value with
  | .nullValue => Except.ok (DecodedValue.null, [])
  | .booleanValue b => Except.ok (DecodedValue.boolean b, [])
  | .integerValue _ =>
      Except.ok (DecodedValue.number
        (normalizeNumber (jsOr value.integerValueField value.doubleValueField)), [])
  | .doubleValue _ =>
      Except.ok (DecodedValue.number
        (normalizeNumber (jsOr value.integerValueField value.doubleValueField)), [])
  | .timestampValue t => Except.ok (DecodedValue.timestamp (convertTimestamp t), [])
  | .serverTimestampValue t prev =>
      convertServerTimestamp expectedDatabaseId t prev serverTimestampBehavior
  | .stringValue s => Except.ok (DecodedValue.string s, [])
  | .bytesValue b => Except.ok (DecodedValue.bytes (normalizeByteString b), [])
  | .referenceValue name =>
      match convertDocumentKey name expectedDatabaseId with
      | Except.error e => Except.error e
      | Except.ok (key, logs) => Except.ok (DecodedValue.reference key, logs)
  | .geoPointValue lat lon =>
      Except.ok (DecodedValue.geoPoint
        (normalizeNumber (lat.map NumPayload.num))
        (normalizeNumber (lon.map NumPayload.num)), [])
  | .arrayValue Option.none => Except.ok (DecodedValue.array [], [])
  | .arrayValue (Option.some vs) =>
      match convertList expectedDatabaseId vs serverTimestampBehavior with
      | Except.error e => Except.error e
      | Except.ok (ds, logs) => Except.ok (DecodedValue.array ds, logs)
  | .mapValue Option.none => Except.ok (DecodedValue.map [], [])
  | .mapValue (Option.some fs) =>
      match convertFields expectedDatabaseId fs serverTimestampBehavior with
      | Except.error e => Except.error e
      | Except.ok (ds, logs) => Except.ok (DecodedValue.map ds, logs)
  | .invalid => Except.error "Invalid value type"

/-- `convertServerTimestamp`: resolve a server-timestamp wrapper (already
destructured into its write time and optional previous value, the fields
`getLocalWriteTime` and `getPreviousValue` expose) under the policy. -/
def convertServerTimestamp (expectedDatabaseId : DatabaseId) (t : ProtoTimestamp)
    (prev : Option WireValue) (serverTimestampBehavior : ServerTimestampBehavior) :
    Except String (DecodedValue × List String) :=
  match serverTimestampBehavior with
  | .previous =>
      match prev with
      | Option.none => Except.ok (DecodedValue.null, [])
      | Option.some previousValue =>
          convertValue expectedDatabaseId previousValue ServerTimestampBehavior.previous
  | .estimate =>
      Except.ok (DecodedValue.timestamp (convertTimestamp (getLocalWriteTime t prev)), [])
  | .none => Except.ok (DecodedValue.null, [])

/-- `convertArray`'s element-wise recursion: decode each element under
the same policy, preserving order, concatenating diagnostics. -/
def convertList (expectedDatabaseId : DatabaseId) (vs : List WireValue)
    (serverTimestampBehavior : ServerTimestampBehavior) :
    Except String (List DecodedValue × List String) :=
  match vs with
  | [] => Except.ok ([], [])
  | v :: rest =>
      match convertValue expectedDatabaseId v serverTimestampBehavior with
      | Except.error e => Except.error e
      | Except.ok (d, logs1) =>
          match convertList expectedDatabaseId rest serverTimestampBehavior with
          | Except.error e => Except.error e
          | Except.ok (ds, logs2) => Except.ok (d :: ds, logs1 ++ logs2)

/-- `convertObject`'s field-wise recursion: decode each field's value
under the same policy and assign it under the same key into the fresh
output record. -/
def convertFields (expectedDatabaseId : DatabaseId) (fs : List (String × WireValue))
    (serverTimestampBehavior : ServerTimestampBehavior) :
    Except String (List (String × DecodedValue) × List String) :=
  match fs with
  | [] => Except.ok ([], [])
  | (k, v) :: rest =>
      match convertValue expectedDatabaseId v serverTimestampBehavior with
      | Except.error e => Except.error e
      | Except.ok (d, logs1) =>
          match convertFields expectedDatabaseId rest serverTimestampBehavior with
          | Except.error e => Except.error e
          | Except.ok (ds, logs2) => Except.ok ((k, d) :: ds, logs1 ++ logs2)

end

mutual

/-- A wire value containing no server-timestamp wrapper anywhere in its
tree. -/
def WireValue.noServerTimestamp : WireValue → Bool
  | .serverTimestampValue _ _ => false
  | .arrayValue Option.none => true
  | .arrayValue (Option.some vs) => noServerTimestampList vs
  | .mapValue Option.none => true
  | .mapValue (Option.some fs) => noServerTimestampFields fs
  | _ => true

/-- No element of the list contains a server-timestamp wrapper. -/
def noServerTimestampList : List WireValue → Bool
  | [] => true
  | v :: rest => v.noServerTimestamp && noServerTimestampList rest

/-- No field value of the list contains a server-timestamp wrapper. -/
def noServerTimestampFields : List (String × WireValue) → Bool
  | [] => true
  | (_, v) :: rest => v.noServerTimestamp && noServerTimestampFields rest

end

theorem convertList_spec (expectedDatabaseId : DatabaseId) (p : ServerTimestampBehavior) :
    ∀ (vs : List WireValue) (ds : List DecodedValue) (logs : List String),
      convertList expectedDatabaseId vs p = Except.ok (ds, logs) →
      ds.length = vs.length ∧
        ∀ (i : Nat) v, vs[i]? = Option.some v →
          ∃ d l, convertValue expectedDatabaseId v p = Except.ok (d, l) ∧
            ds[i]? = Option.some d := by
  intro vs
  induction vs with
  | nil =>
      intro ds logs h
      simp only [convertList] at h
      cases h
      simp
  | cons v rest ih =>
      intro ds logs h
      simp only [convertList] at h
      cases hv : convertValue expectedDatabaseId v p with
      | error e => rw [hv] at h; cases h
      | ok r =>
          obtain ⟨d, logs1⟩ := r
          rw [hv] at h
          cases hrest : convertList expectedDatabaseId rest p with
          | error e => rw [hrest] at h; cases h
          | ok r2 =>
              obtain ⟨ds2, logs2⟩ := r2
              rw [hrest] at h
              cases h
              obtain ⟨hlen, helem⟩ := ih ds2 logs2 hrest
              refine ⟨by simp [hlen], ?_⟩
              intro i w hw
              cases i with
              | zero =>
                  simp at hw
                  subst hw
                  exact ⟨d, logs1, hv, by simp⟩
              | succ j =>
                  simp at hw
                  obtain ⟨d2, l2, hd2, hds2⟩ := helem j w (by simpa using hw)
                  exact ⟨d2, l2, hd2, by simpa using hds2⟩

theorem convertFields_spec (expectedDatabaseId : DatabaseId) (p : ServerTimestampBehavior) :
    ∀ (fs : List (String × WireValue)) (ds : List (String × DecodedValue)) (logs : List String),
      convertFields expectedDatabaseId fs p = Except.ok (ds, logs) →
      ds.map Prod.fst = fs.map Prod.fst ∧
        ∀ (i : Nat) k v, fs[i]? = Option.some (k, v) →
          ∃ d l, convertValue expectedDatabaseId v p = Except.ok (d, l) ∧
            ds[i]? = Option.some (k, d) := by
  intro fs
  induction fs with
  | nil =>
      intro ds logs h
      simp only [convertFields] at h
      cases h
      simp
  | cons kv rest ih =>
      obtain ⟨k, v⟩ := kv
      intro ds logs h
      simp only [convertFields] at h
      cases hv : convertValue expectedDatabaseId v p with
      | error e => rw [hv] at h; cases h
      | ok r =>
          obtain ⟨d, logs1⟩ := r
          rw [hv] at h
          cases hrest : convertFields expectedDatabaseId rest p with
          | error e => rw [hrest] at h; cases h
          | ok r2 =>
              obtain ⟨ds2, logs2⟩ := r2
              rw [hrest] at h
              cases h
              obtain ⟨hkeys, helem⟩ := ih ds2 logs2 hrest
              refine ⟨by simp [hkeys], ?_⟩
              intro i k2 w hw
              cases i with
              | zero =>
                  simp at hw
                  obtain ⟨hk, hv2⟩ := hw
                  subst hk; subst hv2
                  exact ⟨d, logs1, hv, by simp⟩
              | succ j =>
                  simp at hw
                  obtain ⟨d2, l2, hd2, hds2⟩ := helem j k2 w (by simpa using hw)
                  exact ⟨d2, l2, hd2, by simpa using hds2⟩

theorem noServerTimestampList_mem :
    ∀ (vs : List WireValue), noServerTimestampList vs = true →
      ∀ v ∈ vs, v.noServerTimestamp = true := by
  intro vs
  induction vs with
  | nil => intro _ v hv; cases hv
  | cons w rest ih =>
      intro h v hv
      simp only [noServerTimestampList, Bool.and_eq_true] at h
      rcases List.mem_cons.mp hv with h1 | h2
      · subst h1; exact h.1
      · exact ih h.2 v h2

theorem noServerTimestampFields_mem :
    ∀ (fs : List (String × WireValue)), noServerTimestampFields fs = true →
      ∀ kv ∈ fs, (Prod.snd kv).noServerTimestamp = true := by
  intro fs
  induction fs with
  | nil => intro _ kv hkv; cases hkv
  | cons kw rest ih =>
      obtain ⟨k, w⟩ := kw
      intro h kv hkv
      simp only [noServerTimestampFields, Bool.and_eq_true] at h
      rcases List.mem_cons.mp hkv with h1 | h2
      · subst h1; exact h.1
      · exact ih h.2 kv h2

theorem convertList_congr (expectedDatabaseId : DatabaseId) (p1 p2 : ServerTimestampBehavior) :
    ∀ (vs : List WireValue),
      (∀ v ∈ vs, convertValue expectedDatabaseId v p1 = convertValue expectedDatabaseId v p2) →
      convertList expectedDatabaseId vs p1 = convertList expectedDatabaseId vs p2 := by
  intro vs
  induction vs with
  | nil => intro _; rfl
  | cons v rest ih =>
      intro h
      simp only [convertList]
      rw [h v (by simp), ih (fun w hw => h w (by simp [hw]))]

theorem convertFields_congr (expectedDatabaseId : DatabaseId) (p1 p2 : ServerTimestampBehavior) :
    ∀ (fs : List (String × WireValue)),
      (∀ kv ∈ fs, convertValue expectedDatabaseId (Prod.snd kv) p1 =
        convertValue expectedDatabaseId (Prod.snd kv) p2) →
      convertFields expectedDatabaseId fs p1 = convertFields expectedDatabaseId fs p2 := by
  intro fs
  induction fs with
  | nil => intro _; rfl
  | cons kv rest ih =>
      obtain ⟨k, v⟩ := kv
      intro h
      simp only [convertFields]
      rw [h (k, v) (by simp), ih (fun kw hkw => h kw (by simp [hkw]))]

theorem convertValue_policy_aux (expectedDatabaseId : DatabaseId) :
    ∀ (n : Nat) (v : WireValue), sizeOf v ≤ n → v.noServerTimestamp = true →
      ∀ p1 p2, convertValue expectedDatabaseId v p1 = convertValue expectedDatabaseId v p2 := by
  intro n
  induction n with
  | zero =>
      intro v hsz
      exfalso
      cases v <;> simp at hsz
  | succ n ih =>
      intro v hsz hno p1 p2
      cases v with
      | nullValue => rfl
      | booleanValue b => rfl
      | integerValue p => rfl
      | doubleValue q => rfl
      | timestampValue t => rfl
      | serverTimestampValue t prev => simp [WireValue.noServerTimestamp] at hno
      | stringValue s => rfl
      | bytesValue b => rfl
      | referenceValue name => rfl
      | geoPointValue lat lon => rfl
      | invalid => rfl
      | arrayValue ovs =>
          cases ovs with
          | none => rfl
          | some vs =>
              simp only [WireValue.noServerTimestamp] at hno
              simp at hsz
              have hlist : ∀ w ∈ vs, convertValue expectedDatabaseId w p1 =
                  convertValue expectedDatabaseId w p2 := by
                intro w hw
                have hw1 : sizeOf w < sizeOf vs := List.sizeOf_lt_of_mem hw
                refine ih w (by omega) (noServerTimestampList_mem vs hno w hw) p1 p2
              simp only [convertValue]
              rw [convertList_congr expectedDatabaseId p1 p2 vs hlist]
      | mapValue ofs =>
          cases ofs with
          | none => rfl
          | some fs =>
              simp only [WireValue.noServerTimestamp] at hno
              simp at hsz
              have hfields : ∀ kw ∈ fs, convertValue expectedDatabaseId (Prod.snd kw) p1 =
                  convertValue expectedDatabaseId (Prod.snd kw) p2 := by
                intro kw hkw
                have hw1 : sizeOf kw < sizeOf fs := List.sizeOf_lt_of_mem hkw
                have hw2 : sizeOf (Prod.snd kw) < sizeOf kw := by
                  obtain ⟨k, w⟩ := kw
                  simp
                refine ih (Prod.snd kw) (by omega)
                  (noServerTimestampFields_mem fs hno kw hkw) p1 p2
              simp only [convertValue]
              rw [convertFields_congr expectedDatabaseId p1 p2 fs hfields]

theorem convertDocumentKey_valid (name : String) (expectedDatabaseId : DatabaseId)
    (hvalid : isValidResourceName (ResourcePath.fromString name) = true) :
    convertDocumentKey name expectedDatabaseId =
      (if (DatabaseId.mk ((ResourcePath.fromString name).get 1)
            ((ResourcePath.fromString name).get 3)).isEqual expectedDatabaseId then
        Except.ok (DocumentKey.mk ((ResourcePath.fromString name).popFirst 5), [])
      else
        Except.ok (DocumentKey.mk ((ResourcePath.fromString name).popFirst 5),
          [mismatchMessage (DocumentKey.mk ((ResourcePath.fromString name).popFirst 5))
            (DatabaseId.mk ((ResourcePath.fromString name).get 1)
              ((ResourcePath.fromString name).get 3)) expectedDatabaseId])) := by
  unfold convertDocumentKey
  simp [hvalid]

theorem convertDocumentKey_invalid (name : String) (expectedDatabaseId : DatabaseId)
    (hbad : isValidResourceName (ResourcePath.fromString name) = false) :
    convertDocumentKey name expectedDatabaseId =
      Except.error ("ReferenceValue is not valid " ++ name) := by
  unfold convertDocumentKey
  simp [hbad]

/-- Claim C1: decoding a reference wire value whose name is a valid document
resource name always succeeds with the key built from the path minus its
leading 5 segments; when the embedded database identity (segments 1 and 3)
matches the expected one no diagnostic is logged, and when it differs
exactly one diagnostic naming both identities is logged while the same key
is still returned. -/
theorem claim1_reference_key_and_mismatch_diagnostic
    (name : String) (expectedDatabaseId : DatabaseId) (p : ServerTimestampBehavior)
    (hvalid : isValidResourceName (ResourcePath.fromString name) = true) :
    ∃ logs,
      convertValue expectedDatabaseId (WireValue.referenceValue name) p =
        Except.ok (DecodedValue.reference
          (DocumentKey.mk ((ResourcePath.fromString name).popFirst 5)), logs) ∧
      ((DatabaseId.mk ((ResourcePath.fromString name).get 1)
          ((ResourcePath.fromString name).get 3)).isEqual expectedDatabaseId = true →
        logs = []) ∧
      ((DatabaseId.mk ((ResourcePath.fromString name).get 1)
          ((ResourcePath.fromString name).get 3)).isEqual expectedDatabaseId = false →
        logs = [mismatchMessage (DocumentKey.mk ((ResourcePath.fromString name).popFirst 5))
          (DatabaseId.mk ((ResourcePath.fromString name).get 1)
            ((ResourcePath.fromString name).get 3)) expectedDatabaseId]) := by
  cases hmatch : (DatabaseId.mk ((ResourcePath.fromString name).get 1)
      ((ResourcePath.fromString name).get 3)).isEqual expectedDatabaseId with
  | true =>
      refine ⟨[], ?_, fun _ => rfl, fun hc => by simp at hc⟩
      simp [convertValue, convertDocumentKey_valid name expectedDatabaseId hvalid, hmatch]
  | false =>
      refine ⟨[mismatchMessage (DocumentKey.mk ((ResourcePath.fromString name).popFirst 5))
        (DatabaseId.mk ((ResourcePath.fromString name).get 1)
          ((ResourcePath.fromString name).get 3)) expectedDatabaseId],
        ?_, fun hc => by simp at hc, fun _ => rfl⟩
      simp [convertValue, convertDocumentKey_valid name expectedDatabaseId hvalid, hmatch]

/-- Closed instance of claim C1 at the valid name
`projects/P/databases/D/documents/coll/doc` and the mismatching expected
identity `P/D2`. -/
theorem claim1_witness :
    isValidResourceName
      (ResourcePath.fromString "projects/P/databases/D/documents/coll/doc") = true ∧
    (∃ logs,
      convertValue (DatabaseId.mk "P" "D2")
          (WireValue.referenceValue "projects/P/databases/D/documents/coll/doc")
          ServerTimestampBehavior.none =
        Except.ok (DecodedValue.reference
          (DocumentKey.mk ((ResourcePath.fromString
            "projects/P/databases/D/documents/coll/doc").popFirst 5)), logs) ∧
      ((DatabaseId.mk ((ResourcePath.fromString
            "projects/P/databases/D/documents/coll/doc").get 1)
          ((ResourcePath.fromString
            "projects/P/databases/D/documents/coll/doc").get 3)).isEqual
          (DatabaseId.mk "P" "D2") = true → logs = []) ∧
      ((DatabaseId.mk ((ResourcePath.fromString
            "projects/P/databases/D/documents/coll/doc").get 1)
          ((ResourcePath.fromString
            "projects/P/databases/D/documents/coll/doc").get 3)).isEqual
          (DatabaseId.mk "P" "D2") = false →
        logs = [mismatchMessage (DocumentKey.mk ((ResourcePath.fromString
            "projects/P/databases/D/documents/coll/doc").popFirst 5))
          (DatabaseId.mk ((ResourcePath.fromString
              "projects/P/databases/D/documents/coll/doc").get 1)
            ((ResourcePath.fromString
              "projects/P/databases/D/documents/coll/doc").get 3))
          (DatabaseId.mk "P" "D2")])) :=
  ⟨rfl, claim1_reference_key_and_mismatch_diagnostic
    "projects/P/databases/D/documents/coll/doc" (DatabaseId.mk "P" "D2")
    ServerTimestampBehavior.none rfl⟩

/-- Claim C2: a wire value with no recognized tag aborts the decode with a
fault; a reference wire value whose name is not a valid document resource
name aborts with a fault; and every decode call either fully succeeds or
aborts — never a partial result. -/
theorem claim2_contract_violations_abort
    (expectedDatabaseId : DatabaseId) (p : ServerTimestampBehavior) (name : String)
    (hbad : isValidResourceName (ResourcePath.fromString name) = false) :
    (∃ e, convertValue expectedDatabaseId WireValue.invalid p = Except.error e) ∧
    (∃ e, convertValue expectedDatabaseId (WireValue.referenceValue name) p =
      Except.error e) ∧
    (∀ v : WireValue, (∃ e, convertValue expectedDatabaseId v p = Except.error e) ∨
      (∃ r, convertValue expectedDatabaseId v p = Except.ok r)) := by
  refine ⟨⟨"Invalid value type", rfl⟩, ?_, ?_⟩
  · exact ⟨"ReferenceValue is not valid " ++ name,
      by simp [convertValue, convertDocumentKey_invalid name expectedDatabaseId hbad]⟩
  · intro v
    cases hres : convertValue expectedDatabaseId v p with
    | error e => exact Or.inl ⟨e, rfl⟩
    | ok r => exact Or.inr ⟨r, rfl⟩

/-- Closed instance of claim C2 at the malformed reference name
`foo/bar`. -/
theorem claim2_witness :
    isValidResourceName (ResourcePath.fromString "foo/bar") = false ∧
    ((∃ e, convertValue (DatabaseId.mk "P" "D") WireValue.invalid
        ServerTimestampBehavior.none = Except.error e) ∧
    (∃ e, convertValue (DatabaseId.mk "P" "D") (WireValue.referenceValue "foo/bar")
        ServerTimestampBehavior.none = Except.error e) ∧
    (∀ v : WireValue,
      (∃ e, convertValue (DatabaseId.mk "P" "D") v ServerTimestampBehavior.none =
        Except.error e) ∨
      (∃ r, convertValue (DatabaseId.mk "P" "D") v ServerTimestampBehavior.none =
        Except.ok r))) :=
  ⟨rfl, claim2_contract_violations_abort (DatabaseId.mk "P" "D")
    ServerTimestampBehavior.none "foo/bar" rfl⟩

/-- Claim C3: under policy `previous`, a server-timestamp wrapper with no
previous value decodes to null, and one carrying a previous value V
decodes exactly as an independent decode of V under `previous`. -/
theorem claim3_previous_policy_chains
    (expectedDatabaseId : DatabaseId) (t : ProtoTimestamp) :
    (convertValue expectedDatabaseId (WireValue.serverTimestampValue t Option.none)
        ServerTimestampBehavior.previous = Except.ok (DecodedValue.null, [])) ∧
    (∀ V : WireValue,
      convertValue expectedDatabaseId (WireValue.serverTimestampValue t (Option.some V))
          ServerTimestampBehavior.previous =
        convertValue expectedDatabaseId V ServerTimestampBehavior.previous) :=
  ⟨rfl, fun _ => rfl⟩

/-- Claim C4: under policy `none` — the default when no policy is
supplied — a server-timestamp wrapper decodes to null whether or not a
previous value is present. -/
theorem claim4_none_policy_yields_null
    (expectedDatabaseId : DatabaseId) (t : ProtoTimestamp) (prev : Option WireValue) :
    (convertValue expectedDatabaseId (WireValue.serverTimestampValue t prev)
        ServerTimestampBehavior.none = Except.ok (DecodedValue.null, [])) ∧
    (convertValue expectedDatabaseId (WireValue.serverTimestampValue t prev) =
      convertValue expectedDatabaseId (WireValue.serverTimestampValue t prev)
        ServerTimestampBehavior.none) := by
  refine ⟨?_, rfl⟩
  cases prev <;> rfl

/-- Claim C5: under policy `estimate`, a server-timestamp wrapper decodes
to the native timestamp holding its own local write-time field, whatever
previous value it carries. -/
theorem claim5_estimate_policy_uses_local_write_time
    (expectedDatabaseId : DatabaseId) (t : ProtoTimestamp) (prev : Option WireValue) :
    convertValue expectedDatabaseId (WireValue.serverTimestampValue t prev)
        ServerTimestampBehavior.estimate =
      Except.ok (DecodedValue.timestamp (Timestamp.mk t.seconds t.nanos), []) := by
  cases prev <;> rfl

/-- Claim C6: a numeric wire value decodes to the exact number its payload
denotes: an integer-variant payload is the one normalized (in particular
an integer payload of zero decodes to zero), and a double-variant payload
passes through unchanged. -/
theorem claim6_number_normalization
    (expectedDatabaseId : DatabaseId) (p : ServerTimestampBehavior) :
    (∀ pl : NumPayload, convertValue expectedDatabaseId (WireValue.integerValue pl) p =
      Except.ok (DecodedValue.number pl.value, [])) ∧
    (∀ q : ℚ, convertValue expectedDatabaseId (WireValue.doubleValue q) p =
      Except.ok (DecodedValue.number q, [])) ∧
    (convertValue expectedDatabaseId (WireValue.integerValue (NumPayload.num 0)) p =
      Except.ok (DecodedValue.number 0, [])) := by
  refine ⟨?_, fun _ => rfl, ?_⟩
  · intro pl
    cases pl with
    | num q =>
        by_cases hq : q = 0
        · subst hq
          simp [convertValue, WireValue.integerValueField, WireValue.doubleValueField,
            jsOr, NumPayload.truthy, normalizeNumber, NumPayload.value]
        · simp [convertValue, WireValue.integerValueField, WireValue.doubleValueField,
            jsOr, NumPayload.truthy, normalizeNumber, NumPayload.value, hq]
    | str i => rfl
  · simp [convertValue, WireValue.integerValueField, WireValue.doubleValueField,
      jsOr, NumPayload.truthy, normalizeNumber, NumPayload.value]

/-- Claim C7: a successfully decoded array of N elements is a native
sequence of length N whose entry at each index equals the result of an
independent decode of the input element at that index under the same
policy. -/
theorem claim7_array_pointwise
    (expectedDatabaseId : DatabaseId) (p : ServerTimestampBehavior)
    (vs : List WireValue) (res : DecodedValue) (logs : List String)
    (h : convertValue expectedDatabaseId (WireValue.arrayValue (Option.some vs)) p =
      Except.ok (res, logs)) :
    ∃ ds, res = DecodedValue.array ds ∧ ds.length = vs.length ∧
      ∀ (i : Nat) v, vs[i]? = Option.some v →
        ∃ d l, convertValue expectedDatabaseId v p = Except.ok (d, l) ∧
          ds[i]? = Option.some d := by
  simp only [convertValue] at h
  cases hcl : convertList expectedDatabaseId vs p with
  | error er => rw [hcl] at h; cases h
  | ok r =>
      obtain ⟨ds, logs2⟩ := r
      rw [hcl] at h
      simp at h
      obtain ⟨h1, h2⟩ := h
      obtain ⟨hlen, helem⟩ := convertList_spec expectedDatabaseId p vs ds logs2 hcl
      exact ⟨ds, h1.symm, hlen, helem⟩

/-- Closed instance of claim C7 at a concrete two-element array. -/
theorem claim7_witness :
    convertValue (DatabaseId.mk "P" "D")
        (WireValue.arrayValue (Option.some [WireValue.nullValue, WireValue.booleanValue true]))
        ServerTimestampBehavior.none =
      Except.ok (DecodedValue.array [DecodedValue.null, DecodedValue.boolean true], []) ∧
    (∃ ds, DecodedValue.array [DecodedValue.null, DecodedValue.boolean true] =
        DecodedValue.array ds ∧
      ds.length = [WireValue.nullValue, WireValue.booleanValue true].length ∧
      ∀ (i : Nat) v, [WireValue.nullValue, WireValue.booleanValue true][i]? = Option.some v →
        ∃ d l, convertValue (DatabaseId.mk "P" "D") v ServerTimestampBehavior.none =
          Except.ok (d, l) ∧ ds[i]? = Option.some d) :=
  ⟨rfl, claim7_array_pointwise (DatabaseId.mk "P" "D") ServerTimestampBehavior.none
    [WireValue.nullValue, WireValue.booleanValue true]
    (DecodedValue.array [DecodedValue.null, DecodedValue.boolean true]) [] rfl⟩

/-- Claim C8: a successfully decoded map has exactly the input's keys, in
order, each mapped to the result of an independent decode of its value
under the same policy; a map whose field set is absent decodes to the
empty record. -/
theorem claim8_map_pointwise
    (expectedDatabaseId : DatabaseId) (p : ServerTimestampBehavior)
    (fs : List (String × WireValue)) (res : DecodedValue) (logs : List String)
    (h : convertValue expectedDatabaseId (WireValue.mapValue (Option.some fs)) p =
      Except.ok (res, logs)) :
    (convertValue expectedDatabaseId (WireValue.mapValue Option.none) p =
      Except.ok (DecodedValue.map [], [])) ∧
    ∃ ds, res = DecodedValue.map ds ∧ ds.map Prod.fst = fs.map Prod.fst ∧
      ∀ (i : Nat) k v, fs[i]? = Option.some (k, v) →
        ∃ d l, convertValue expectedDatabaseId v p = Except.ok (d, l) ∧
          ds[i]? = Option.some (k, d) := by
  refine ⟨rfl, ?_⟩
  simp only [convertValue] at h
  cases hcf : convertFields expectedDatabaseId fs p with
  | error er => rw [hcf] at h; cases h
  | ok r =>
      obtain ⟨ds, logs2⟩ := r
      rw [hcf] at h
      simp at h
      obtain ⟨h1, h2⟩ := h
      obtain ⟨hkeys, helem⟩ := convertFields_spec expectedDatabaseId p fs ds logs2 hcf
      exact ⟨ds, h1.symm, hkeys, helem⟩

/-- Closed instance of claim C8 at a concrete one-field map. -/
theorem claim8_witness :
    convertValue (DatabaseId.mk "P" "D")
        (WireValue.mapValue (Option.some [("a", WireValue.booleanValue false)]))
        ServerTimestampBehavior.none =
      Except.ok (DecodedValue.map [("a", DecodedValue.boolean false)], []) ∧
    ((convertValue (DatabaseId.mk "P" "D") (WireValue.mapValue Option.none)
        ServerTimestampBehavior.none = Except.ok (DecodedValue.map [], [])) ∧
    ∃ ds, DecodedValue.map [("a", DecodedValue.boolean false)] = DecodedValue.map ds ∧
      ds.map Prod.fst = [("a", WireValue.booleanValue false)].map Prod.fst ∧
      ∀ (i : Nat) k v, [("a", WireValue.booleanValue false)][i]? = Option.some (k, v) →
        ∃ d l, convertValue (DatabaseId.mk "P" "D") v ServerTimestampBehavior.none =
          Except.ok (d, l) ∧ ds[i]? = Option.some (k, d)) :=
  ⟨rfl, claim8_map_pointwise (DatabaseId.mk "P" "D") ServerTimestampBehavior.none
    [("a", WireValue.booleanValue false)]
    (DecodedValue.map [("a", DecodedValue.boolean false)]) [] rfl⟩

/-- Claim C9: an array wire value whose element list is absent decodes to
the empty native sequence rather than failing, under every policy. -/
theorem claim9_absent_array_is_empty
    (expectedDatabaseId : DatabaseId) (p : ServerTimestampBehavior) :
    convertValue expectedDatabaseId (WireValue.arrayValue Option.none) p =
      Except.ok (DecodedValue.array [], []) :=
  rfl

/-- Claim C10: on a wire value containing no server-timestamp wrapper
anywhere in its tree, the decode result is identical under all policies:
the policy only influences server-timestamp wrappers. -/
theorem claim10_policy_irrelevant_without_server_timestamps
    (expectedDatabaseId : DatabaseId) (v : WireValue)
    (h : v.noServerTimestamp = true) (p1 p2 : ServerTimestampBehavior) :
    convertValue expectedDatabaseId v p1 = convertValue expectedDatabaseId v p2 :=
  convertValue_policy_aux expectedDatabaseId (sizeOf v) v (Nat.le_refl _) h p1 p2

/-- Closed instance of claim C10 at a concrete nested value, comparing
the `estimate` and `previous` policies. -/
theorem claim10_witness :
    (WireValue.mapValue (Option.some [("a", WireValue.arrayValue
      (Option.some [WireValue.booleanValue true]))])).noServerTimestamp = true ∧
    convertValue (DatabaseId.mk "P" "D")
        (WireValue.mapValue (Option.some [("a", WireValue.arrayValue
          (Option.some [WireValue.booleanValue true]))]))
        ServerTimestampBehavior.estimate =
      convertValue (DatabaseId.mk "P" "D")
        (WireValue.mapValue (Option.some [("a", WireValue.arrayValue
          (Option.some [WireValue.booleanValue true]))]))
        ServerTimestampBehavior.previous :=
  ⟨rfl, claim10_policy_irrelevant_without_server_timestamps (DatabaseId.mk "P" "D")
    (WireValue.mapValue (Option.some [("a", WireValue.arrayValue
      (Option.some [WireValue.booleanValue true]))])) rfl
    ServerTimestampBehavior.estimate ServerTimestampBehavior.previous⟩

end Firestore
